import Mathlib

/-!
Verification of the multisync flow engine (`src/core.mjs`).

The development shallowly embeds the core of the orchestrator:
the JSON-value model used by agent outputs, the JSON-Schema → Zod
translator (`jsonSchemaToZod`), configuration validation
(`validateConfig`), the two-pass agent registry builder (`buildAgents`),
the step executors (`execSingleAgent`, `execAgentReviewer` with its
expression evaluator `evalExpr`), and the public runner (`runFlow`).

External collaborators are modelled as oracles:
* the LLM-invocation primitive `run(agent, history)` of the Agents SDK
  becomes a function `RunOracle : Option AgentFinal → History → RunResult`;
* the JavaScript engine behind `new Function(...)` in `evalExpr` becomes a
  `JsEngine : String → List (String × JsValue) → Option JsValue`, where
  `none` models a thrown error (syntax error, unbound identifier, or an
  exception raised by the evaluated expression).

Machine-level JavaScript values are modelled by `JsValue` (the shapes the
core manipulates: undefined, null, booleans, numbers, strings and plain
objects; arrays do not occur in any of the code paths embedded here).
-/

/-! ## JavaScript value model -/

/-- A JavaScript runtime value, restricted to the shapes `core.mjs`
manipulates: `undefined`, `null`, booleans, numbers, strings and plain
objects (association lists of fields, in insertion order). -/
inductive JsValue where
  | vUndefined
  | vNull
  | vBool (b : Bool)
  | vNum (n : Int)
  | vStr (s : String)
  | vObj (fields : List (String × JsValue))

/-- First-match lookup in an association list keyed by strings (JavaScript
object property access; JS objects cannot carry duplicate keys). -/
def alookup {α : Type} : List (String × α) → String → Option α
  | [], _ => none
  | (k, v) :: rest, key => if k = key then some v else alookup rest key

/-- JavaScript truthiness. -/
def truthy : JsValue → Bool
  | .vUndefined => false
  | .vNull => false
  | .vBool b => b
  | .vNum n => n != 0
  | .vStr s => s != ""
  | .vObj _ => true

/-- JavaScript nullishness (`undefined` or `null`), as tested by `??`. -/
def nullish : JsValue → Bool
  | .vUndefined => true
  | .vNull => true
  | _ => false

/-- String coercion as performed by a template literal interpolation. -/
def jsToString : JsValue → String
  | .vUndefined => "undefined"
  | .vNull => "null"
  | .vBool b => cond b "true" "false"
  | .vNum n => toString n
  | .vStr s => s
  | .vObj _ => "[object Object]"

/-- Optional-chaining property read `v?.k`: `undefined` on nullish
receivers, field lookup on objects, `undefined` on other primitives
(none of the properties the core reads exist on them). -/
def optChainField (v : JsValue) (k : String) : JsValue :=
  match v with
  | .vUndefined => .vUndefined
  | .vNull => .vUndefined
  | .vObj fs => (alookup fs k).getD .vUndefined
  | _ => .vUndefined

/-- Plain property read `v.k` as an `Except`: reading a property of
`undefined` or `null` throws a `TypeError`. -/
def getFieldJs (v : JsValue) (k : String) : Except String JsValue :=
  match v with
  | .vUndefined => .error ("TypeError: Cannot read properties of undefined (reading " ++ k ++ ")")
  | .vNull => .error ("TypeError: Cannot read properties of null (reading " ++ k ++ ")")
  | .vObj fs => .ok ((alookup fs k).getD .vUndefined)
  | _ => .ok .vUndefined

/-- Hexadecimal digit. -/
def hexDigit (n : Nat) : Char :=
  if n < 10 then Char.ofNat (48 + n) else Char.ofNat (87 + n)

/-- JSON escaping of a single character, as `JSON.stringify` performs. -/
def jsonEscapeChar (c : Char) : String :=
  if c = '"' then "\\\""
  else if c = '\\' then "\\\\"
  else if c = '\n' then "\\n"
  else if c = '\t' then "\\t"
  else if c = '\r' then "\\r"
  else if c.toNat = 8 then "\\b"
  else if c.toNat = 12 then "\\f"
  else if c.toNat < 32 then
    "\\u00" ++ String.mk [hexDigit (c.toNat / 16), hexDigit (c.toNat % 16)]
  else String.singleton c

/-- JSON string literal for `s`, double quotes included. -/
def jsonQuote (s : String) : String :=
  "\"" ++ String.join (s.toList.map jsonEscapeChar) ++ "\""

mutual
/-- `JSON.stringify` on the value model; `none` models the `undefined`
result (`JSON.stringify(undefined)` is `undefined`, and object fields
holding `undefined` are omitted from the output). -/
def jsonStringifyVal : JsValue → Option String
  | .vUndefined => none
  | .vNull => some "null"
  | .vBool b => some (cond b "true" "false")
  | .vNum n => some (toString n)
  | .vStr s => some (jsonQuote s)
  | .vObj fs => some ("\x7b" ++ String.intercalate "," (jsonStringifyFields fs) ++ "\x7d")

/-- Serialized `"key":value` items of an object, skipping `undefined`
fields exactly as `JSON.stringify` does. -/
def jsonStringifyFields : List (String × JsValue) → List String
  | [] => []
  | (k, v) :: rest =>
    match jsonStringifyVal v with
    | none => jsonStringifyFields rest
    | some s => (jsonQuote k ++ ":" ++ s) :: jsonStringifyFields rest
end

/-! ## Conversation history and the LLM-invocation oracle -/

/-- A history message `{role, content}`. -/
structure Message where
  role : String
  content : String

/-- Conversational history: an ordered message sequence. -/
abbrev History := List Message

/-- Result of the external `run(agent, history)` primitive:
`finalOutput` is the raw SDK field (`vUndefined` when absent), and
`history` is `none` when the SDK returned no (or a nullish) updated
history, in which case `res.history || history` keeps the input. -/
structure RunResult where
  finalOutput : JsValue
  history : Option History

/-! ## Expression evaluator (`evalExpr`) -/

/-- The JavaScript engine behind `new Function(...Object.keys(ctx),
"return (expr);")(...Object.values(ctx))`, as an oracle: given the
expression text and the context bindings it either produces the
expression's value or throws (`none`). -/
def JsEngine := String → List (String × JsValue) → Option JsValue

/-- `evalExpr(expr, ctx)`: evaluate the expression in a scope whose only
bindings are the context keys; any thrown error is caught and turned
into `false`. The value is returned raw, with no boolean coercion. -/
def evalExpr (eng : JsEngine) (expr : String) (ctx : List (String × JsValue)) : JsValue :=
  match eng expr ctx with
  | some v => v
  | none => .vBool false

/-! ## Propose/review executor (`execAgentReviewer`) -/

/-- Object-spread view of a value, as used by `{...review, turn,
maxTurns}`: objects contribute their fields, strings contribute their
indexed characters, other primitives contribute nothing. -/
def spreadFields : JsValue → List (String × JsValue)
  | .vObj fs => fs
  | .vStr s => (s.toList.enum).map (fun p => (toString p.1, JsValue.vStr (String.singleton p.2)))
  | _ => []

/-- Set a key in an object-literal field list: overrides an existing key
in place, otherwise appends (JavaScript object-literal semantics). -/
def setKey : List (String × JsValue) → String → JsValue → List (String × JsValue)
  | [], k, v => [(k, v)]
  | (k0, v0) :: rest, k, v =>
    if k0 = k then (k, v) :: rest else (k0, v0) :: setKey rest k v

/-- The pass-condition context `{...review, turn, maxTurns}`. -/
def mkReviewCtx (review : JsValue) (turn : Nat) (mt : Int) : List (String × JsValue) :=
  setKey (setKey (spreadFields review) "turn" (.vNum (turn : Int))) "maxTurns" (.vNum mt)

/-- Feedback text: `review?.feedback ?? JSON.stringify(review)`, then
coerced to a string by the template literal. -/
def feedbackString (review : JsValue) : String :=
  let f := optChainField review "feedback"
  if nullish f then
    match jsonStringifyVal review with
    | some s => s
    | none => "undefined"
  else jsToString f

/-- Feedback injection after a failed pass check: `as_system` appends a
system message, `as_user` appends a user message, anything else appends
nothing. -/
def injectFeedback (fi : String) (review : JsValue) (h : History) : History :=
  let fb := feedbackString review
  if fi = "as_system" then h ++ [⟨"system", "Feedback: " ++ fb⟩]
  else if fi = "as_user" then h ++ [⟨"user", "Feedback: " ++ fb⟩]
  else h

/-- Options of the propose/review executor (every call site in `runFlow`
supplies all four fields, so the JS destructuring defaults never apply
there). -/
structure ReviewOpts where
  passCondition : String
  maxTurns : Int
  feedbackInjection : String
  carryHistory : Bool

/-- The values produced by one iteration of the `while` body of
`execAgentReviewer`. -/
structure TurnResult where
  lastProposal : JsValue
  review : JsValue
  historyOut : History
  passValue : JsValue

/-- One iteration of the `while` body: propose (`lastProposal :=
prop.finalOutput ?? null`), adopt history if carrying, review (`review :=
rev.finalOutput || \x7b\x7d`), adopt history if carrying, then evaluate
the pass condition on `{...review, turn, maxTurns}`. -/
def reviewTurn (eng : JsEngine) (runProp runRev : History → RunResult)
    (pc : String) (mt : Int) (ch : Bool) (turn : Nat) (h : History) : TurnResult :=
  let prop := runProp h
  let lastProposal := if nullish prop.finalOutput then JsValue.vNull else prop.finalOutput
  let h1 := if ch then prop.history.getD h else h
  let rev := runRev h1
  let review := if truthy rev.finalOutput then rev.finalOutput else JsValue.vObj []
  let h2 := if ch then rev.history.getD h1 else h1
  ⟨lastProposal, review, h2, evalExpr eng pc (mkReviewCtx review turn mt)⟩

/-- Result of the propose/review executor. The source returns
`{finalOutput, history, passed}`; `turn` additionally records the final
value of the loop counter variable `turn` of the source, so that
turn-count properties can be stated. -/
structure RevOut where
  finalOutput : JsValue
  history : History
  passed : Bool
  turn : Nat

/-- The `while (turn < maxTurns)` loop of `execAgentReviewer`, with the
remaining iteration budget as fuel (`fuel = maxTurns - turn`). On a
truthy pass value it returns the last proposal with `passed: true`;
otherwise it injects feedback and continues; an exhausted budget returns
the last proposal with `passed: false`. -/
def reviewLoop (eng : JsEngine) (runProp runRev : History → RunResult)
    (pc : String) (mt : Int) (fi : String) (ch : Bool) :
    Nat → Nat → JsValue → History → RevOut
  | 0, turn, lastP, h => ⟨lastP, h, false, turn⟩
  | fuel + 1, turn, _, h =>
    let t := turn + 1
    let r := reviewTurn eng runProp runRev pc mt ch t h
    if truthy r.passValue then ⟨r.lastProposal, r.historyOut, true, t⟩
    else
      reviewLoop eng runProp runRev pc mt fi ch fuel t r.lastProposal
        (injectFeedback fi r.review r.historyOut)

/-- `execAgentReviewer(proposalAgent, reviewerAgent, history, opts)`,
with the two `run` invocations abstracted as `runProp`/`runRev`. The
counter starts at `0` and the loop runs while `turn < maxTurns`, so the
budget is `maxTurns.toNat`. -/
def execAgentReviewer (eng : JsEngine) (runProp runRev : History → RunResult)
    (history : History) (opts : ReviewOpts) : RevOut :=
  reviewLoop eng runProp runRev opts.passCondition opts.maxTurns
    opts.feedbackInjection opts.carryHistory opts.maxTurns.toNat 0 .vNull history

/-! ## Single-agent executor and the run oracle -/

/-- Result of `execSingleAgent`. -/
structure SingleOut where
  finalOutput : JsValue
  history : History

/-! ## JSON Schema → Zod translator (`jsonSchemaToZod`) -/

/-- A JSON-Schema-like object as it appears in `outputSchemas`: every
field is optional, mirroring presence/absence of the corresponding
property on the configuration object. -/
inductive JSchema where
  | node (jtype : Option String) (enumVals : Option (List String))
      (items : Option JSchema)
      (properties : Option (List (String × JSchema)))
      (required : Option (List String))
      (additionalProperties : Option Bool)

/-- The declared `type` of a schema. -/
def JSchema.jtype : JSchema → Option String
  | .node t _ _ _ _ _ => t

/-- The `properties` map of a schema. -/
def JSchema.properties : JSchema → Option (List (String × JSchema))
  | .node _ _ _ pr _ _ => pr

/-- The `required` list of a schema. -/
def JSchema.required : JSchema → Option (List String)
  | .node _ _ _ _ rq _ => rq

/-- The runtime validators producible by the translator (the Zod
combinators the source uses: `z.any`, `z.string`, `z.enum`, `z.number`,
`z.boolean`, `z.array`, `z.object` with optional `.strict()`, and
`.optional()` field markers). -/
inductive Zod where
  | any
  | str
  | strEnum (values : List String)
  | num
  | boolean
  | arr (item : Zod)
  | obj (shape : List (String × Zod)) (strict : Bool)
  | optional (inner : Zod)

mutual
/-- Body of `jsonSchemaToZod` for a present schema object, following the
source's branch order. -/
def jsonSchemaToZodSome : JSchema → Zod
  | .node t e it pr rq ap =>
    if t = some "string" then
      match e with
      | some vs => .strEnum vs
      | none => .str
    else if t = some "number" ∨ t = some "integer" then .num
    else if t = some "boolean" then .boolean
    else if t = some "array" then
      match it with
      | some i => .arr (jsonSchemaToZodSome i)
      | none => .arr .any
    else if t = some "object" ∨ pr.isSome then
      let shape :=
        match pr with
        | some l => jsonSchemaToZodFields l (rq.getD [])
        | none => []
      .obj shape (ap = some false)
    else .any

/-- Translation of the `properties` entries: each field is translated
and marked `.optional()` unless listed in `required`. -/
def jsonSchemaToZodFields : List (String × JSchema) → List String → List (String × Zod)
  | [], _ => []
  | (k, v) :: rest, req =>
    let zf := jsonSchemaToZodSome v
    (k, if req.contains k then zf else .optional zf) :: jsonSchemaToZodFields rest req
end

/-- `jsonSchemaToZod(schema)`: a nullish/absent schema yields the
accept-anything validator; otherwise translate the schema object. -/
def jsonSchemaToZod : Option JSchema → Zod
  | none => .any
  | some s => jsonSchemaToZodSome s

/-! ## Configuration model -/

/-- Per-step `io` options. -/
structure IoCfg where
  carryHistory : Option Bool

/-- A step of `flow.steps`; the union of the fields read by the engine
for either step kind, each optional. -/
structure StepCfg where
  id : Option String
  type : Option String
  agentRef : Option String
  proposalAgentRef : Option String
  reviewerAgentRef : Option String
  passCondition : Option String
  maxTurns : Option Int
  feedbackInjection : Option String
  io : Option IoCfg

/-- A tool declaration of an agent. -/
structure ToolCfg where
  kind : Option String
  ref : Option String
  id : Option String
  description : Option String

/-- An agent specification from the `agents` map. -/
structure AgentCfg where
  name : Option String
  instructions : Option String
  outputSchemaRef : Option String
  modelSettings : Option JsValue
  mcpServerRefs : Option (List String)
  tools : Option (List ToolCfg)

/-- The `flow` object. -/
structure FlowCfg where
  steps : Option (List StepCfg)

/-- An MCP server specification. -/
structure McpCfg where
  type : Option String
  name : Option String
  fullCommand : Option String
  args : Option (List String)
  url : Option String

/-- The workflow configuration root; maps are association lists in
declaration order (`Object.entries` order). -/
structure Config where
  flow : Option FlowCfg
  outputSchemas : Option (List (String × JSchema))
  agents : Option (List (String × AgentCfg))
  mcpServers : Option (List (String × McpCfg))

/-! ## Config validation (`validateConfig`) -/

/-- The output-schema checks of `validateConfig`, in entry order: each
schema must have a `result` property and must list `result` in
`required`; the first offender aborts with an error naming it. -/
def validateSchemas : List (String × JSchema) → Except String Unit
  | [] => .ok ()
  | (name, s) :: rest =>
    if (s.properties.bind (fun l => alookup l "result")).isNone then
      .error ("Output schema \"" ++ name ++ "\" must have \"result\" property")
    else if ¬ ((s.required.getD []).contains "result") then
      .error ("Output schema \"" ++ name ++ "\" must require \"result\"")
    else validateSchemas rest

/-- The agent checks of `validateConfig`, in entry order: every agent
needs a (truthy) `outputSchemaRef` resolving inside `outputSchemas`. -/
def validateAgents (schemas : Option (List (String × JSchema))) :
    List (String × AgentCfg) → Except String Unit
  | [] => .ok ()
  | (id, a) :: rest =>
    match a.outputSchemaRef with
    | none => .error ("Agent \"" ++ id ++ "\" must have outputSchemaRef")
    | some ref =>
      if ref = "" then .error ("Agent \"" ++ id ++ "\" must have outputSchemaRef")
      else
        match schemas with
        | none => .error ("Agent \"" ++ id ++ "\" references unknown schema \"" ++ ref ++ "\"")
        | some ss =>
          if (alookup ss ref).isSome then validateAgents schemas rest
          else .error ("Agent \"" ++ id ++ "\" references unknown schema \"" ++ ref ++ "\"")

/-- `validateConfig(config)`: requires a `flow` property, a non-empty
`flow.steps`, well-formed output schemas and resolvable agent schema
references, throwing (as `Except.error`) on the first violation. -/
def validateConfig (config : Option Config) : Except String Unit :=
  match config with
  | none => .error ("Configuration must contain a \"flow\" property")
  | some cfg =>
    match cfg.flow with
    | none => .error ("Configuration must contain a \"flow\" property")
    | some flow =>
      if (match flow.steps with | some l => l.length == 0 | none => true : Bool) then
        .error "Flow must contain at least one step"
      else
        match validateSchemas (cfg.outputSchemas.getD []) with
        | .error e => .error e
        | .ok _ => validateAgents cfg.outputSchemas (cfg.agents.getD [])

/-! ## API key enforcement (`ensureOpenAIKey`) -/

/-- JavaScript `String.prototype.trim()`: strip whitespace from both
ends. -/
def jsTrim (s : String) : String :=
  String.mk (((s.toList.dropWhile Char.isWhitespace).reverse.dropWhile
    Char.isWhitespace).reverse)

/-- `ensureOpenAIKey(explicitKey)` with the ambient
`process.env.OPENAI_API_KEY` made explicit: a truthy explicit key
overrides the environment value; a missing or blank effective key
throws. (The source also writes the override back into the process
environment; that process-wide mutation is outside this model.) -/
def ensureOpenAIKey (explicitKey : Option String) (envKey : Option String) :
    Except String String :=
  let effective :=
    match explicitKey with
    | some k => if k = "" then envKey else some k
    | none => envKey
  match effective with
  | none => .error "Missing OpenAI API key. Provide --api-key or set OPENAI_API_KEY."
  | some k =>
    if k = "" ∨ jsTrim k = "" then
      .error "Missing OpenAI API key. Provide --api-key or set OPENAI_API_KEY."
    else .ok k

/-! ## Builders (`buildMcpServers`, `buildAgents`) -/

/-- A registry handle: a connected stdio subprocess transport, or a raw
URL for HTTP servers. -/
inductive McpHandle where
  | stdio (name : String) (fullCommand : String)
  | httpUrl (url : Option String)

/-- `x || d` on optional strings: empty or absent falls back to `d`. -/
def jsOrStr (o : Option String) (d : String) : String :=
  match o with
  | some s => if s = "" then d else s
  | none => d

/-- `buildMcpServers(mcpConfig)` without its connection side effects
(`srv.connect()` is an external call awaited by the source): stdio
entries join the command and arguments (dropping falsy parts), http
entries keep the URL, unknown types produce no entry. -/
def buildMcpServers (mcpConfig : List (String × McpCfg)) : List (String × McpHandle) :=
  mcpConfig.filterMap (fun p =>
    let cfg := p.2
    let ty := cfg.type.map String.toLower
    if ty = some "stdio" then
      let parts := (cfg.fullCommand :: (cfg.args.getD []).map some).filterMap
        (fun o => match o with
          | some s => if s = "" then none else some s
          | none => none)
      some (p.1, .stdio (jsOrStr cfg.name p.1) (String.intercalate " " parts))
    else if ty = some "http" then some (p.1, .httpUrl cfg.url)
    else none)

/-- A pass-1 (tool-less) agent handle. -/
structure AgentBase where
  name : String
  instructions : String
  outputType : Zod
  modelSettings : JsValue
  mcpServers : List McpHandle

/-- A callable tool wrapping a pass-1 base handle (`base[t.ref].asTool`). -/
structure BuiltTool where
  toolName : String
  toolDescription : String
  target : AgentBase

/-- A pass-2 (final) agent handle: the pass-1 fields plus the tool list. -/
structure AgentFinal where
  name : String
  instructions : String
  outputType : Zod
  modelSettings : JsValue
  mcpServers : List McpHandle
  tools : List BuiltTool

/-- Pass-1 construction of a single agent. -/
def buildBaseAgent (outputSchemas : List (String × JSchema))
    (mcpRegistry : List (String × McpHandle)) (id : String) (a : AgentCfg) : AgentBase :=
  { name := jsOrStr a.name id
  , instructions := jsOrStr a.instructions ""
  , outputType := jsonSchemaToZod (a.outputSchemaRef.bind (alookup outputSchemas))
  , modelSettings :=
      match a.modelSettings with
      | some v => if truthy v then v else .vObj []
      | none => .vObj []
  , mcpServers := (a.mcpServerRefs.getD []).filterMap (alookup mcpRegistry) }

/-- Pass 1 over the whole agents map. -/
def buildBaseAgents (agentsConfig : List (String × AgentCfg))
    (mcpRegistry : List (String × McpHandle))
    (outputSchemas : List (String × JSchema)) : List (String × AgentBase) :=
  agentsConfig.map (fun p => (p.1, buildBaseAgent outputSchemas mcpRegistry p.1 p.2))

/-- Resolution of one tool entry in pass 2: only entries with
`kind === "agent"` whose `ref` resolves in the pass-1 map contribute a
tool (`if (t.kind === "agent" && base[t.ref])`); the tool is named
`t.id || t.ref` and described by `t.description` or a default. An entry
that does not resolve is skipped, silently — the source emits no
warning. -/
def buildAgentTool (base : List (String × AgentBase)) (t : ToolCfg) : Option BuiltTool :=
  if t.kind = some "agent" then
    match t.ref with
    | none => none
    | some r =>
      match alookup base r with
      | none => none
      | some b => some
          { toolName := jsOrStr t.id r
          , toolDescription := jsOrStr t.description ("Tool for agent " ++ r)
          , target := b }
  else none

/-- Pass-2 construction of a single agent: same fields as pass 1 plus
the resolved tool list. -/
def buildFinalAgent (base : List (String × AgentBase))
    (outputSchemas : List (String × JSchema))
    (mcpRegistry : List (String × McpHandle)) (id : String) (a : AgentCfg) : AgentFinal :=
  { name := jsOrStr a.name id
  , instructions := jsOrStr a.instructions ""
  , outputType := jsonSchemaToZod (a.outputSchemaRef.bind (alookup outputSchemas))
  , modelSettings :=
      match a.modelSettings with
      | some v => if truthy v then v else .vObj []
      | none => .vObj []
  , mcpServers := (a.mcpServerRefs.getD []).filterMap (alookup mcpRegistry)
  , tools := (a.tools.getD []).filterMap (buildAgentTool base) }

/-- `buildAgents(agentsConfig, mcpRegistry, outputSchemas)`: the two-pass
build. The second component of the result is the list of warnings the
function emits to diagnostic output; the source's body contains no
warning call, so it is always empty. -/
def buildAgents (agentsConfig : List (String × AgentCfg))
    (mcpRegistry : List (String × McpHandle))
    (outputSchemas : List (String × JSchema)) :
    List (String × AgentFinal) × List String :=
  let base := buildBaseAgents agentsConfig mcpRegistry outputSchemas
  (agentsConfig.map (fun p => (p.1, buildFinalAgent base outputSchemas mcpRegistry p.1 p.2)), [])

/-! ## Flow engine (`runFlow`) -/

/-- The external LLM-invocation primitive `run(agent, history)`; the
agent argument is whatever `agents[ref]` produced (`none` models an
unresolved reference, i.e. passing `undefined`). -/
abbrev RunOracle := Option AgentFinal → History → RunResult

/-- `execSingleAgent(agent, history, carryHistory)`: one invocation; the
next history is the primitive's returned history when carrying
(falling back to the input when none came back), else the input
history unchanged. -/
def execSingleAgent (runO : RunOracle) (agent : Option AgentFinal)
    (history : History) (carryHistory : Bool) : SingleOut :=
  let res := runO agent history
  ⟨res.finalOutput, if carryHistory then res.history.getD history else history⟩

/-- The default pass condition `score == "pass"`. -/
def defaultPassCondition : String := "score == \"pass\""

/-- `step.passCondition || defaultPassCondition`. -/
def stepPassCondition (step : StepCfg) : String :=
  jsOrStr step.passCondition defaultPassCondition

/-- `typeof step.maxTurns === "number" ? step.maxTurns : 8`. -/
def stepMaxTurns (step : StepCfg) : Int :=
  step.maxTurns.getD 8

/-- `step.feedbackInjection || "as_user"`. -/
def stepFeedbackInjection (step : StepCfg) : String :=
  jsOrStr step.feedbackInjection "as_user"

/-- `step?.io?.carryHistory !== false`. -/
def stepCarryHistory (step : StepCfg) : Bool :=
  match step.io.bind IoCfg.carryHistory with
  | some false => false
  | _ => true

/-- Dispatch of one flow step by `type`: `single_agent` and
`agent_reviewer` replace the current output and history; any other type
is a fatal error naming it. -/
def runFlowStep (runO : RunOracle) (eng : JsEngine)
    (agents : List (String × AgentFinal)) (step : StepCfg) (h : History) :
    Except String (JsValue × History) :=
  if step.type = some "single_agent" then
    let agent := step.agentRef.bind (alookup agents)
    let r := execSingleAgent runO agent h (stepCarryHistory step)
    .ok (r.finalOutput, r.history)
  else if step.type = some "agent_reviewer" then
    let proposal := step.proposalAgentRef.bind (alookup agents)
    let reviewer := step.reviewerAgentRef.bind (alookup agents)
    let out := execAgentReviewer eng (runO proposal) (runO reviewer) h
      ⟨stepPassCondition step, stepMaxTurns step, stepFeedbackInjection step,
        stepCarryHistory step⟩
    .ok (out.finalOutput, out.history)
  else
    .error ("Unknown step type: " ++ (match step.type with | some s => s | none => "undefined"))

/-- The step loop of `runFlow`: thread history and current output
through the steps in order, propagating the first error. -/
def runFlowSteps (runO : RunOracle) (eng : JsEngine)
    (agents : List (String × AgentFinal)) :
    List StepCfg → History → JsValue → Except String (JsValue × History)
  | [], h, cur => .ok (cur, h)
  | step :: rest, h, _cur =>
    match runFlowStep runO eng agents step h with
    | .error e => .error e
    | .ok (out, h2) => runFlowSteps runO eng agents rest h2 out

/-- End-of-flow output standardization: a still-`null` output becomes
`{result: ""}`; a bare string is a fatal error; an object must carry a
truthy `result` and is otherwise returned unchanged. A property read on
`undefined` propagates the thrown `TypeError`. -/
def standardizeOutput (cur : JsValue) : Except String JsValue :=
  match cur with
  | .vNull => .ok (.vObj [("result", .vStr "")])
  | .vStr _ => .error "Output must be an object with a required \"result\" property"
  | c =>
    match getFieldJs c "result" with
    | .error e => .error e
    | .ok r => if truthy r then .ok c else .error "Output must include \"result\""

/-- `runFlow(config, userPrompt, opts)`: enforce the API key, validate
the configuration, build the MCP registry and the agents, seed the
history with the user prompt, run the steps in order and standardize
the final output. -/
def runFlow (envKey : Option String) (runO : RunOracle) (eng : JsEngine)
    (config : Option Config) (userPrompt : String) (apiKeyOpt : Option String) :
    Except String JsValue :=
  match ensureOpenAIKey apiKeyOpt envKey with
  | .error e => .error e
  | .ok _ =>
    match validateConfig config with
    | .error e => .error e
    | .ok _ =>
      match config with
      | none => .error ("Configuration must contain a \"flow\" property")
      | some cfg =>
        let mcpRegistry := buildMcpServers (cfg.mcpServers.getD [])
        let agents := (buildAgents (cfg.agents.getD []) mcpRegistry
          (cfg.outputSchemas.getD [])).1
        let steps :=
          match cfg.flow with
          | some f => f.steps.getD []
          | none => []
        match runFlowSteps runO eng agents steps [⟨"user", userPrompt⟩] .vNull with
        | .error e => .error e
        | .ok (cur, _) => standardizeOutput cur

/-! ## Specification-side predicates and concrete fixtures -/

/-- The two per-schema checks of `validateConfig`, as one predicate:
`properties` carries a `result` entry and `required` lists `"result"`. -/
def schemaOk (s : JSchema) : Bool :=
  (s.properties.bind (fun l => alookup l "result")).isSome &&
  (s.required.getD []).contains "result"

/-- The per-agent check of `validateConfig`: a truthy `outputSchemaRef`
resolving inside `outputSchemas`. -/
def agentOk (schemas : Option (List (String × JSchema))) (a : AgentCfg) : Bool :=
  match a.outputSchemaRef with
  | none => false
  | some r =>
    r != "" &&
    (match schemas with
     | none => false
     | some ss => (alookup ss r).isSome)

/-- A concrete engine instance: the JavaScript engine evaluating the
default pass condition `score == "pass"` (string comparison against the
`score` binding; any other expression text throws). -/
def scoreEngine : JsEngine := fun e c =>
  if e = defaultPassCondition then
    match alookup c "score" with
    | some (.vStr s) => some (.vBool (s == "pass"))
    | _ => some (.vBool false)
  else none

/-- A concrete engine instance: evaluates a lone identifier by context
lookup (an unbound identifier throws), e.g. the pass condition `turn`. -/
def identEngine : JsEngine := fun e c =>
  match alookup c e with
  | some v => some v
  | none => none

/-- A concrete engine instance on which every evaluation throws — the
behavior of a syntactically invalid expression such as `== pass`, whose
`new Function` construction raises a `SyntaxError` for every context. -/
def errEngine : JsEngine := fun _ _ => none

/-- A proposal agent run: always returns `{result: "draft"}` and no
updated history. -/
def runPropDraft : History → RunResult := fun _ =>
  ⟨.vObj [("result", .vStr "draft")], none⟩

/-- A reviewer run that always fails: `{score: "fail"}`. -/
def runRevFail : History → RunResult := fun _ =>
  ⟨.vObj [("score", .vStr "fail")], none⟩

/-- A reviewer run that always passes: `{score: "pass"}`. -/
def runRevPass : History → RunResult := fun _ =>
  ⟨.vObj [("score", .vStr "pass")], none⟩

/-- A run oracle producing no output at all (`finalOutput` undefined). -/
def runNothing : RunOracle := fun _ _ => ⟨.vUndefined, none⟩

/-- A run oracle that always answers `{result: "x"}`. -/
def runResultX : RunOracle := fun _ _ => ⟨.vObj [("result", .vStr "x")], none⟩

/-- A seed history with one user message. -/
def hiHistory : History := [⟨"user", "hi"⟩]

/-- A configuration whose `flow.steps` is present but empty. -/
def emptyStepsConfig : Config :=
  { flow := some ⟨some []⟩, outputSchemas := none, agents := none, mcpServers := none }

/-- A bare `agent_reviewer` step (all per-step options defaulted). -/
def revStep : StepCfg :=
  { id := none, type := some "agent_reviewer", agentRef := none,
    proposalAgentRef := none, reviewerAgentRef := none, passCondition := none,
    maxTurns := none, feedbackInjection := none, io := none }

/-- A configuration with a single bare `agent_reviewer` step. -/
def revStepConfig : Config :=
  { flow := some ⟨some [revStep]⟩, outputSchemas := none, agents := none, mcpServers := none }

/-- A bare `single_agent` step. -/
def singleStep : StepCfg :=
  { id := none, type := some "single_agent", agentRef := none,
    proposalAgentRef := none, reviewerAgentRef := none, passCondition := none,
    maxTurns := none, feedbackInjection := none, io := none }

/-- A configuration with a single bare `single_agent` step. -/
def singleStepConfig : Config :=
  { flow := some ⟨some [singleStep]⟩, outputSchemas := none, agents := none, mcpServers := none }

/-- The schema `{type: "object", properties: {result: {type: "string"}},
required: ["result"]}`. -/
def basicSchema : JSchema :=
  .node (some "object") none none
    (some [("result", .node (some "string") none none none none none)])
    (some ["result"]) none

/-- An agent declaring one `agent`-kind tool whose `ref` names no
configured agent. -/
def unknownRefAgentCfg : AgentCfg :=
  { name := none, instructions := none, outputSchemaRef := some "basic",
    modelSettings := none, mcpServerRefs := none,
    tools := some [⟨some "agent", some "nonexistent", some "helper", none⟩] }

/-- A configuration whose only output schema lacks a `result` property. -/
def badSchemaConfig : Config :=
  { flow := some ⟨some [singleStep]⟩,
    outputSchemas := some [("noResult", .node (some "object") none none (some []) none none)],
    agents := none, mcpServers := none }

/-! ## Helper lemmas about the review loop -/

/-- Unfolding of one loop iteration whose pass value is truthy. -/
theorem reviewLoop_succ_pass (eng : JsEngine) (runProp runRev : History → RunResult)
    (pc : String) (mt : Int) (fi : String) (ch : Bool)
    (fuel turn : Nat) (lastP : JsValue) (h : History)
    (hp : truthy (reviewTurn eng runProp runRev pc mt ch (turn + 1) h).passValue = true) :
    reviewLoop eng runProp runRev pc mt fi ch (fuel + 1) turn lastP h =
      ⟨(reviewTurn eng runProp runRev pc mt ch (turn + 1) h).lastProposal,
        (reviewTurn eng runProp runRev pc mt ch (turn + 1) h).historyOut,
        true, turn + 1⟩ := by
  simp [reviewLoop, hp]

/-- Unfolding of one loop iteration whose pass value is falsy. -/
theorem reviewLoop_succ_fail (eng : JsEngine) (runProp runRev : History → RunResult)
    (pc : String) (mt : Int) (fi : String) (ch : Bool)
    (fuel turn : Nat) (lastP : JsValue) (h : History)
    (hp : truthy (reviewTurn eng runProp runRev pc mt ch (turn + 1) h).passValue = false) :
    reviewLoop eng runProp runRev pc mt fi ch (fuel + 1) turn lastP h =
      reviewLoop eng runProp runRev pc mt fi ch fuel (turn + 1)
        (reviewTurn eng runProp runRev pc mt ch (turn + 1) h).lastProposal
        (injectFeedback fi (reviewTurn eng runProp runRev pc mt ch (turn + 1) h).review
          (reviewTurn eng runProp runRev pc mt ch (turn + 1) h).historyOut) := by
  simp [reviewLoop, hp]

/-- When every evaluation of the pass condition throws, every iteration
fails the pass check and the loop exhausts its whole budget. -/
theorem reviewLoop_exhausts (eng : JsEngine) (runProp runRev : History → RunResult)
    (pc : String) (mt : Int) (fi : String) (ch : Bool)
    (hE : ∀ c, eng pc c = none) :
    ∀ (fuel turn : Nat) (lastP : JsValue) (h : History),
      (reviewLoop eng runProp runRev pc mt fi ch fuel turn lastP h).passed = false ∧
      (reviewLoop eng runProp runRev pc mt fi ch fuel turn lastP h).turn = turn + fuel := by
  intro fuel
  induction fuel with
  | zero => intro turn lastP h; simp [reviewLoop]
  | succ n ih =>
    intro turn lastP h
    have hp : truthy (reviewTurn eng runProp runRev pc mt ch (turn + 1) h).passValue = false := by
      simp [reviewTurn, evalExpr, hE, truthy]
    rw [reviewLoop_succ_fail eng runProp runRev pc mt fi ch n turn lastP h hp]
    refine ⟨(ih _ _ _).1, ?_⟩
    rw [(ih _ _ _).2]
    omega

/-- When the proposal runs never produce an output, the running last
proposal stays `null` through the loop. -/
theorem reviewLoop_no_output (eng : JsEngine) (runProp runRev : History → RunResult)
    (pc : String) (mt : Int) (fi : String) (ch : Bool)
    (hP : ∀ h, (runProp h).finalOutput = .vUndefined) :
    ∀ (fuel turn : Nat) (h : History),
      (reviewLoop eng runProp runRev pc mt fi ch fuel turn .vNull h).finalOutput = .vNull := by
  intro fuel
  induction fuel with
  | zero => intro turn h; simp [reviewLoop]
  | succ n ih =>
    intro turn h
    have hlp : (reviewTurn eng runProp runRev pc mt ch (turn + 1) h).lastProposal = .vNull := by
      simp [reviewTurn, hP, nullish]
    by_cases hp : truthy (reviewTurn eng runProp runRev pc mt ch (turn + 1) h).passValue = true
    · rw [reviewLoop_succ_pass eng runProp runRev pc mt fi ch n turn .vNull h hp]
      exact hlp
    · rw [reviewLoop_succ_fail eng runProp runRev pc mt fi ch n turn .vNull h
        (Bool.not_eq_true _ ▸ hp)]
      rw [hlp]
      exact ih _ _

/-! ## Claims about the propose/review executor and the evaluator -/

/-- C1: whenever the pass condition evaluates truthy on the first
iteration (e.g. the reviewer returns `{score: "pass"}` on turn 1), the
executor stops after exactly one propose/review iteration and returns
the proposal agent's output — `prop.finalOutput ?? null` of the first
proposal run, not the reviewer's output — together with `passed: true`. -/
theorem execAgentReviewer_pass_first_turn
    (eng : JsEngine) (runProp runRev : History → RunResult) (history : History)
    (pc fi : String) (mt : Int) (ch : Bool)
    (hmt : 1 ≤ mt)
    (hpass : truthy (reviewTurn eng runProp runRev pc mt ch 1 history).passValue = true) :
    execAgentReviewer eng runProp runRev history ⟨pc, mt, fi, ch⟩ =
      ⟨(reviewTurn eng runProp runRev pc mt ch 1 history).lastProposal,
        (reviewTurn eng runProp runRev pc mt ch 1 history).historyOut, true, 1⟩ ∧
    (reviewTurn eng runProp runRev pc mt ch 1 history).lastProposal =
      (if nullish (runProp history).finalOutput then JsValue.vNull
       else (runProp history).finalOutput) := by
  obtain ⟨k, hk⟩ : ∃ k, mt.toNat = k + 1 := ⟨mt.toNat - 1, by omega⟩
  constructor
  · show reviewLoop eng runProp runRev pc mt fi ch mt.toNat 0 .vNull history = _
    rw [hk]
    exact reviewLoop_succ_pass eng runProp runRev pc mt fi ch k 0 .vNull history hpass
  · rfl

/-- C1 witness: with the default pass condition, a proposer answering
`{result: "draft"}` and a reviewer answering `{score: "pass"}`, the
executor passes on turn 1 and returns the proposal's output. -/
theorem execAgentReviewer_pass_first_turn_witness :
    (execAgentReviewer scoreEngine runPropDraft runRevPass hiHistory
        ⟨defaultPassCondition, 8, "as_user", true⟩).passed = true ∧
    (execAgentReviewer scoreEngine runPropDraft runRevPass hiHistory
        ⟨defaultPassCondition, 8, "as_user", true⟩).finalOutput =
      .vObj [("result", .vStr "draft")] ∧
    (execAgentReviewer scoreEngine runPropDraft runRevPass hiHistory
        ⟨defaultPassCondition, 8, "as_user", true⟩).turn = 1 := by
  have h := execAgentReviewer_pass_first_turn scoreEngine runPropDraft runRevPass hiHistory
    defaultPassCondition "as_user" 8 true (by decide) (by rfl)
  rw [h.1]
  exact ⟨rfl, rfl, rfl⟩

/-- C2 counterexample: with `maxTurns: 1`, a reviewer always answering
`{score: "fail"}` and the default `as_user` injection, the loop does
return the last proposal with `passed: false` after exactly 1 turn, but
the feedback message IS appended to the returned history (the source
injects feedback after every failed pass check, with no turns-remaining
guard), contradicting the claim that no feedback message is appended. -/
theorem execAgentReviewer_no_feedback_on_last_turn_cex :
    execAgentReviewer scoreEngine runPropDraft runRevFail hiHistory
        ⟨defaultPassCondition, 1, "as_user", true⟩ =
      ⟨.vObj [("result", .vStr "draft")],
        [⟨"user", "hi"⟩, ⟨"user", "Feedback: \x7b\"score\":\"fail\"\x7d"⟩],
        false, 1⟩ := by
  rfl

/-- C2 (amended): with `maxTurns = 1` and a first iteration whose pass
check fails, the executor returns the last proposal with `passed: false`
after exactly 1 turn, and exactly one feedback message (role `user`
under the default injection mode) is appended to the returned history:
feedback is injected after every failed check, including the final
turn. -/
theorem execAgentReviewer_one_turn_feedback_appended
    (eng : JsEngine) (runProp runRev : History → RunResult) (history : History)
    (pc : String) (ch : Bool)
    (hfail : truthy (reviewTurn eng runProp runRev pc 1 ch 1 history).passValue = false) :
    execAgentReviewer eng runProp runRev history ⟨pc, 1, "as_user", ch⟩ =
      ⟨(reviewTurn eng runProp runRev pc 1 ch 1 history).lastProposal,
        (reviewTurn eng runProp runRev pc 1 ch 1 history).historyOut ++
          [⟨"user", "Feedback: " ++
            feedbackString (reviewTurn eng runProp runRev pc 1 ch 1 history).review⟩],
        false, 1⟩ := by
  show reviewLoop eng runProp runRev pc 1 "as_user" ch (Int.toNat 1) 0 .vNull history = _
  rw [show (Int.toNat 1) = 0 + 1 from rfl]
  rw [reviewLoop_succ_fail eng runProp runRev pc 1 "as_user" ch 0 0 .vNull history hfail]
  simp [reviewLoop, injectFeedback]

/-- C2 amended witness: the amended statement at the counterexample's
concrete inputs. -/
theorem execAgentReviewer_one_turn_feedback_appended_witness :
    execAgentReviewer scoreEngine runPropDraft runRevFail hiHistory
        ⟨defaultPassCondition, 1, "as_user", true⟩ =
      ⟨(reviewTurn scoreEngine runPropDraft runRevFail defaultPassCondition 1 true 1
          hiHistory).lastProposal,
        (reviewTurn scoreEngine runPropDraft runRevFail defaultPassCondition 1 true 1
          hiHistory).historyOut ++
          [⟨"user", "Feedback: " ++
            feedbackString (reviewTurn scoreEngine runPropDraft runRevFail
              defaultPassCondition 1 true 1 hiHistory).review⟩],
        false, 1⟩ :=
  execAgentReviewer_one_turn_feedback_appended scoreEngine runPropDraft runRevFail
    hiHistory defaultPassCondition true (by rfl)

/-- C3: an evaluation the engine throws on is caught and returned as
`false`; consequently a pass condition whose evaluation throws for every
context (e.g. a syntactically invalid expression) never passes, and the
loop exhausts its whole `maxTurns` budget before returning the last
proposal with `passed: false`. -/
theorem evalExpr_error_false_and_loop_exhausts :
    (∀ (eng : JsEngine) (e : String) (c : List (String × JsValue)),
        eng e c = none → evalExpr eng e c = .vBool false) ∧
    (∀ (eng : JsEngine) (runProp runRev : History → RunResult) (history : History)
        (pc fi : String) (mt : Int) (ch : Bool),
        (∀ c, eng pc c = none) →
        (execAgentReviewer eng runProp runRev history ⟨pc, mt, fi, ch⟩).passed = false ∧
        (execAgentReviewer eng runProp runRev history ⟨pc, mt, fi, ch⟩).turn = mt.toNat) := by
  constructor
  · intro eng e c h
    simp [evalExpr, h]
  · intro eng runProp runRev history pc fi mt ch hE
    have h := reviewLoop_exhausts eng runProp runRev pc mt fi ch hE mt.toNat 0 .vNull history
    exact ⟨h.1, by simpa using h.2⟩

/-- C3 witness: the syntactically invalid condition `== pass` (every
evaluation throws) never passes and exhausts `maxTurns = 3`. -/
theorem evalExpr_error_false_and_loop_exhausts_witness :
    evalExpr errEngine "== pass" [] = .vBool false ∧
    (execAgentReviewer errEngine runPropDraft runRevFail hiHistory
        ⟨"== pass", 3, "as_user", true⟩).passed = false ∧
    (execAgentReviewer errEngine runPropDraft runRevFail hiHistory
        ⟨"== pass", 3, "as_user", true⟩).turn = 3 := by
  have h1 := (evalExpr_error_false_and_loop_exhausts).1 errEngine "== pass" [] rfl
  have h2 := (evalExpr_error_false_and_loop_exhausts).2 errEngine runPropDraft runRevFail
    hiHistory "== pass" "as_user" 3 true (fun _ => rfl)
  exact ⟨h1, h2.1, h2.2⟩

/-- C10: `evalExpr` returns the expression's value raw, with no boolean
coercion, and the loop's pass check accepts any truthy value — e.g. a
pass condition evaluating to a nonzero number or non-empty string makes
the loop return `passed: true`. -/
theorem evalExpr_truthiness_uncoerced
    (eng : JsEngine) (runProp runRev : History → RunResult) (history : History)
    (pc fi : String) (mt : Int) (ch : Bool) (v : JsValue)
    (hmt : 1 ≤ mt)
    (hv : eng pc (mkReviewCtx (reviewTurn eng runProp runRev pc mt ch 1 history).review
        1 mt) = some v)
    (htr : truthy v = true) :
    evalExpr eng pc (mkReviewCtx (reviewTurn eng runProp runRev pc mt ch 1 history).review
        1 mt) = v ∧
    (execAgentReviewer eng runProp runRev history ⟨pc, mt, fi, ch⟩).passed = true := by
  have hev : evalExpr eng pc
      (mkReviewCtx (reviewTurn eng runProp runRev pc mt ch 1 history).review 1 mt) = v := by
    simp [evalExpr, hv]
  have hpass : truthy (reviewTurn eng runProp runRev pc mt ch 1 history).passValue = true := by
    have hrt : (reviewTurn eng runProp runRev pc mt ch 1 history).passValue =
        evalExpr eng pc
          (mkReviewCtx (reviewTurn eng runProp runRev pc mt ch 1 history).review 1 mt) := rfl
    rw [hrt, hev]
    exact htr
  obtain ⟨k, hk⟩ : ∃ k, mt.toNat = k + 1 := ⟨mt.toNat - 1, by omega⟩
  refine ⟨hev, ?_⟩
  show (reviewLoop eng runProp runRev pc mt fi ch mt.toNat 0 .vNull history).passed = true
  rw [hk, reviewLoop_succ_pass eng runProp runRev pc mt fi ch k 0 .vNull history hpass]

/-- C10 witness: the pass condition `turn` evaluates to the nonzero
number 1 on the first iteration; the loop passes on that truthy,
non-boolean value. -/
theorem evalExpr_truthiness_uncoerced_witness :
    evalExpr identEngine "turn"
        (mkReviewCtx (reviewTurn identEngine runPropDraft runRevFail "turn" 5 true 1
          hiHistory).review 1 5) = .vNum 1 ∧
    (execAgentReviewer identEngine runPropDraft runRevFail hiHistory
        ⟨"turn", 5, "as_user", true⟩).passed = true :=
  evalExpr_truthiness_uncoerced identEngine runPropDraft runRevFail hiHistory "turn"
    "as_user" 5 true (.vNum 1) (by decide) (by rfl) (by rfl)

/-! ## Claims about the single-agent executor and the flow engine -/

/-- C6: with `carryHistory` false, the single-agent executor returns the
input history unchanged (same list, hence same length and contents), and
a `single_agent` flow step whose `io.carryHistory` is `false` leaves the
flow history identical while replacing only the current output. -/
theorem execSingleAgent_carryHistory_false_frame :
    (∀ (runO : RunOracle) (agent : Option AgentFinal) (h : History),
        (execSingleAgent runO agent h false).history = h) ∧
    (∀ (runO : RunOracle) (eng : JsEngine) (agents : List (String × AgentFinal))
        (step : StepCfg) (h : History),
        step.type = some "single_agent" →
        step.io.bind IoCfg.carryHistory = some false →
        runFlowStep runO eng agents step h =
          .ok ((runO (step.agentRef.bind (alookup agents)) h).finalOutput, h)) := by
  constructor
  · intro runO agent h
    simp [execSingleAgent]
  · intro runO eng agents step h htype hch
    have hc : stepCarryHistory step = false := by
      simp [stepCarryHistory, hch]
    simp [runFlowStep, htype, execSingleAgent, hc]

/-- C6 witness: the frame property at a concrete step and history. -/
theorem execSingleAgent_carryHistory_false_frame_witness :
    (execSingleAgent runResultX none hiHistory false).history = hiHistory ∧
    runFlowStep runResultX scoreEngine []
        { singleStep with io := some ⟨some false⟩ } hiHistory =
      .ok (.vObj [("result", .vStr "x")], hiHistory) := by
  refine ⟨execSingleAgent_carryHistory_false_frame.1 runResultX none hiHistory, ?_⟩
  have h := execSingleAgent_carryHistory_false_frame.2 runResultX scoreEngine []
    { singleStep with io := some ⟨some false⟩ } hiHistory rfl rfl
  rw [h]
  rfl

/-- C9: the schema translator is total by construction (it is a Lean
function mirroring a source function with no throw statement), a
nullish/absent schema yields the accept-anything validator, and any
schema whose `type` is unrecognized and which has no `properties`
degrades to the accept-anything validator. -/
theorem jsonSchemaToZod_total_fallback :
    (jsonSchemaToZod none = .any) ∧
    (∀ (t : Option String) (e : Option (List String)) (it : Option JSchema)
        (rq : Option (List String)) (ap : Option Bool),
        t ≠ some "string" → t ≠ some "number" → t ≠ some "integer" →
        t ≠ some "boolean" → t ≠ some "array" → t ≠ some "object" →
        jsonSchemaToZod (some (.node t e it none rq ap)) = .any) := by
  constructor
  · rfl
  · intro t e it rq ap h1 h2 h3 h4 h5 h6
    show jsonSchemaToZodSome (.node t e it none rq ap) = .any
    rw [jsonSchemaToZodSome.eq_def]
    simp [h1, h2, h3, h4, h5, h6]

/-- C9 witness: a schema with the unrecognized type `weird` and no
`properties` translates to the accept-anything validator. -/
theorem jsonSchemaToZod_total_fallback_witness :
    jsonSchemaToZod none = .any ∧
    jsonSchemaToZod (some (.node (some "weird") none none none none none)) = .any :=
  ⟨jsonSchemaToZod_total_fallback.1,
    jsonSchemaToZod_total_fallback.2 (some "weird") none none none none
      (by decide) (by decide) (by decide) (by decide) (by decide) (by decide)⟩

/-- In a validated single-step flow, `runFlow` reduces to the step's
execution followed by end-of-flow output standardization. -/
theorem runFlow_single_step
    (envKey apiKey : Option String) (runO : RunOracle) (eng : JsEngine)
    (config : Config) (prompt k : String) (f : FlowCfg) (step : StepCfg)
    (hkey : ensureOpenAIKey apiKey envKey = .ok k)
    (hval : validateConfig (some config) = .ok ())
    (hf : config.flow = some f) (hsteps : f.steps = some [step]) :
    runFlow envKey runO eng (some config) prompt apiKey =
      (match runFlowStep runO eng
          ((buildAgents (config.agents.getD [])
            (buildMcpServers (config.mcpServers.getD []))
            (config.outputSchemas.getD [])).1) step [⟨"user", prompt⟩] with
       | .error e => .error e
       | .ok (out, _) => standardizeOutput out) := by
  have hA : ∀ (A : List (String × AgentFinal)),
      runFlowSteps runO eng A [step] [⟨"user", prompt⟩] .vNull =
        (match runFlowStep runO eng A step [⟨"user", prompt⟩] with
         | .error e => .error e
         | .ok (out, h2) => .ok (out, h2)) := by
    intro A
    cases hstep : runFlowStep runO eng A step [⟨"user", prompt⟩] with
    | error e => simp [runFlowSteps, hstep]
    | ok p => cases p with | mk out h2 => simp [runFlowSteps, hstep]
  simp only [runFlow, hkey, hval, hf, hsteps, Option.getD_some, hA]
  cases runFlowStep runO eng
      ((buildAgents (config.agents.getD [])
        (buildMcpServers (config.mcpServers.getD []))
        (config.outputSchemas.getD [])).1) step [⟨"user", prompt⟩] with
  | error e => rfl
  | ok p => cases p with | mk out h2 => rfl

/-- When the proposal runs never produce an output, the propose/review
executor returns a `null` final output. -/
theorem execAgentReviewer_no_output (eng : JsEngine)
    (runProp runRev : History → RunResult) (history : History) (opts : ReviewOpts)
    (hP : ∀ h, (runProp h).finalOutput = .vUndefined) :
    (execAgentReviewer eng runProp runRev history opts).finalOutput = .vNull :=
  reviewLoop_no_output eng runProp runRev opts.passCondition opts.maxTurns
    opts.feedbackInjection opts.carryHistory hP opts.maxTurns.toNat 0 history

/-- C5: end-of-flow standardization — a bare-string final output fails
with the error naming the required `result` property; an object without
a truthy `result` field fails; any other object is returned unchanged,
extra fields included; and a flow whose single `single_agent` step
returns an object with a truthy `result` yields exactly that object. -/
theorem standardizeOutput_spec :
    (∀ s : String, standardizeOutput (.vStr s) =
        .error "Output must be an object with a required \"result\" property") ∧
    (∀ fs : List (String × JsValue),
        truthy ((alookup fs "result").getD .vUndefined) = false →
        standardizeOutput (.vObj fs) = .error "Output must include \"result\"") ∧
    (∀ fs : List (String × JsValue),
        truthy ((alookup fs "result").getD .vUndefined) = true →
        standardizeOutput (.vObj fs) = .ok (.vObj fs)) ∧
    (∀ (envKey apiKey : Option String) (runO : RunOracle) (eng : JsEngine)
        (config : Config) (prompt k : String) (f : FlowCfg) (step : StepCfg)
        (out : List (String × JsValue)),
        ensureOpenAIKey apiKey envKey = .ok k →
        validateConfig (some config) = .ok () →
        config.flow = some f → f.steps = some [step] →
        step.type = some "single_agent" →
        (∀ ag h, runO ag h = ⟨.vObj out, none⟩) →
        truthy ((alookup out "result").getD .vUndefined) = true →
        runFlow envKey runO eng (some config) prompt apiKey = .ok (.vObj out)) := by
  refine ⟨fun s => rfl, ?_, ?_, ?_⟩
  · intro fs h
    simp [standardizeOutput, getFieldJs, h]
  · intro fs h
    simp [standardizeOutput, getFieldJs, h]
  · intro envKey apiKey runO eng config prompt k f step out hkey hval hf hsteps htype hO htr
    rw [runFlow_single_step envKey apiKey runO eng config prompt k f step hkey hval hf hsteps]
    have hstep : runFlowStep runO eng
        ((buildAgents (config.agents.getD [])
          (buildMcpServers (config.mcpServers.getD []))
          (config.outputSchemas.getD [])).1) step [⟨"user", prompt⟩] =
        .ok (.vObj out, [⟨"user", prompt⟩]) := by
      simp [runFlowStep, htype, execSingleAgent, hO]
    rw [hstep]
    simp [standardizeOutput, getFieldJs, htr]

/-- C5 witness: the bare string `oops` fails standardization with the
error naming `result`, and a one-step flow answering `{result: "x"}`
yields exactly `{result: "x"}`. -/
theorem standardizeOutput_spec_witness :
    standardizeOutput (.vStr "oops") =
      .error "Output must be an object with a required \"result\" property" ∧
    runFlow (some "sk-test") runResultX scoreEngine (some singleStepConfig) "go" none =
      .ok (.vObj [("result", .vStr "x")]) :=
  ⟨standardizeOutput_spec.1 "oops",
    standardizeOutput_spec.2.2.2 (some "sk-test") none runResultX scoreEngine
      singleStepConfig "go" "sk-test" ⟨some [singleStep]⟩ singleStep
      [("result", .vStr "x")] rfl rfl rfl rfl rfl (fun _ _ => rfl) rfl⟩

/-- C4 counterexample: a configuration whose `flow.steps` is empty does
not complete and does not return `{result: ""}` — `runFlow` fails
validation with the `at least one step` error before any step runs. -/
theorem runFlow_empty_steps_cex :
    runFlow (some "sk-test") runNothing errEngine (some emptyStepsConfig) "hello" none =
      .error "Flow must contain at least one step" ∧
    runFlow (some "sk-test") runNothing errEngine (some emptyStepsConfig) "hello" none ≠
      .ok (.vObj [("result", .vStr "")]) := by
  have h : runFlow (some "sk-test") runNothing errEngine (some emptyStepsConfig) "hello" none =
      .error "Flow must contain at least one step" := by rfl
  exact ⟨h, by rw [h]; intro hc; cases hc⟩

/-- C4 (amended): a configuration whose `flow.steps` is empty or absent
does not run at all — `runFlow` throws `Flow must contain at least one
step` during validation; the `{result: ""}` output instead arises when a
validated flow completes with no step having produced output (the
current output still `null`), e.g. a single `agent_reviewer` step whose
proposal runs return no output. -/
theorem runFlow_empty_steps_amended :
    (∀ (envKey apiKey : Option String) (runO : RunOracle) (eng : JsEngine)
        (config : Config) (prompt k : String) (f : FlowCfg),
        ensureOpenAIKey apiKey envKey = .ok k →
        config.flow = some f → (f.steps = some [] ∨ f.steps = none) →
        runFlow envKey runO eng (some config) prompt apiKey =
          .error "Flow must contain at least one step") ∧
    (∀ (envKey apiKey : Option String) (runO : RunOracle) (eng : JsEngine)
        (config : Config) (prompt k : String) (f : FlowCfg) (step : StepCfg),
        ensureOpenAIKey apiKey envKey = .ok k →
        validateConfig (some config) = .ok () →
        config.flow = some f → f.steps = some [step] →
        step.type = some "agent_reviewer" →
        (∀ ag h, runO ag h = ⟨.vUndefined, none⟩) →
        runFlow envKey runO eng (some config) prompt apiKey =
          .ok (.vObj [("result", .vStr "")])) := by
  constructor
  · intro envKey apiKey runO eng config prompt k f hkey hf hsteps
    have hv : validateConfig (some config) = .error "Flow must contain at least one step" := by
      rcases hsteps with h | h <;> simp [validateConfig, hf, h]
    simp [runFlow, hkey, hv]
  · intro envKey apiKey runO eng config prompt k f step hkey hval hf hsteps htype hO
    rw [runFlow_single_step envKey apiKey runO eng config prompt k f step hkey hval hf hsteps]
    have hout : (execAgentReviewer eng
        (runO (step.proposalAgentRef.bind (alookup
          ((buildAgents (config.agents.getD [])
            (buildMcpServers (config.mcpServers.getD []))
            (config.outputSchemas.getD [])).1))))
        (runO (step.reviewerAgentRef.bind (alookup
          ((buildAgents (config.agents.getD [])
            (buildMcpServers (config.mcpServers.getD []))
            (config.outputSchemas.getD [])).1))))
        [⟨"user", prompt⟩]
        ⟨stepPassCondition step, stepMaxTurns step, stepFeedbackInjection step,
          stepCarryHistory step⟩).finalOutput = .vNull :=
      execAgentReviewer_no_output _ _ _ _ _ (fun h => by rw [hO])
    simp only [runFlowStep, htype]
    simp only [Option.some.injEq, String.reduceEq, reduceIte, hout]
    rfl

/-! ## Claims about config validation and the registry builder -/

/-- A schema list whose entries all satisfy both checks validates. -/
theorem validateSchemas_ok (l : List (String × JSchema))
    (h : ∀ p ∈ l, schemaOk p.2 = true) : validateSchemas l = .ok () := by
  induction l with
  | nil => rfl
  | cons p rest ih =>
    obtain ⟨n, s⟩ := p
    have hs := h (n, s) (by simp)
    simp only [schemaOk, Bool.and_eq_true] at hs
    obtain ⟨v, hv⟩ := Option.isSome_iff_exists.mp hs.1
    have hmem : "result" ∈ s.required.getD [] := by simpa using hs.2
    simp only [validateSchemas, hv]
    simp [hmem]
    exact ih (fun q hq => h q (by simp [hq]))

/-- The first offending schema aborts `validateSchemas` with one of its
two errors, which both name the schema. -/
theorem validateSchemas_offender (pre : List (String × JSchema)) (n : String)
    (s : JSchema) (post : List (String × JSchema))
    (hpre : ∀ p ∈ pre, schemaOk p.2 = true) (hs : schemaOk s = false) :
    validateSchemas (pre ++ (n, s) :: post) =
        .error ("Output schema \"" ++ n ++ "\" must have \"result\" property") ∨
    validateSchemas (pre ++ (n, s) :: post) =
        .error ("Output schema \"" ++ n ++ "\" must require \"result\"") := by
  induction pre with
  | nil =>
    simp only [List.nil_append]
    cases hx : (s.properties.bind (fun l => alookup l "result")) with
    | none => left; simp [validateSchemas, hx]
    | some v =>
      right
      have hnm : "result" ∉ s.required.getD [] := by
        have h2 := hs
        simp [schemaOk, hx] at h2
        exact h2
      simp [validateSchemas, hx, hnm]
  | cons q pre ih =>
    obtain ⟨qn, qs⟩ := q
    have hq := hpre (qn, qs) (by simp)
    simp only [schemaOk, Bool.and_eq_true] at hq
    obtain ⟨v, hv⟩ := Option.isSome_iff_exists.mp hq.1
    have hmem : "result" ∈ qs.required.getD [] := by simpa using hq.2
    have hstep : validateSchemas ((qn, qs) :: (pre ++ (n, s) :: post)) =
        validateSchemas (pre ++ (n, s) :: post) := by
      simp only [validateSchemas, hv]
      simp [hmem]
    rw [List.cons_append, hstep]
    exact ih (fun p hp => hpre p (by simp [hp]))

/-- An agent list whose entries all resolve validates. -/
theorem validateAgents_ok (schemas : Option (List (String × JSchema)))
    (l : List (String × AgentCfg))
    (h : ∀ p ∈ l, agentOk schemas p.2 = true) : validateAgents schemas l = .ok () := by
  induction l with
  | nil => rfl
  | cons p rest ih =>
    obtain ⟨id, a⟩ := p
    have ha := h (id, a) (by simp)
    cases href : a.outputSchemaRef with
    | none => simp [agentOk, href] at ha
    | some r =>
      simp only [agentOk, href] at ha
      have hr : ¬ r = "" := by
        intro hc; subst hc; simp at ha
      cases hss : schemas with
      | none => subst hss; simp at ha
      | some ss =>
        subst hss
        have ha2 : (r != "" && (alookup ss r).isSome) = true := ha
        have hl : (alookup ss r).isSome = true := (Bool.and_eq_true _ _ ▸ ha2).2
        simp [validateAgents, href, hr, hl]
        exact ih (fun q hq => h q (by simp [hq]))

/-- The first offending agent aborts `validateAgents` with one of its
two errors, which both name the agent. -/
theorem validateAgents_offender (schemas : Option (List (String × JSchema)))
    (pre : List (String × AgentCfg)) (id : String) (a : AgentCfg)
    (post : List (String × AgentCfg))
    (hpre : ∀ p ∈ pre, agentOk schemas p.2 = true) (ha : agentOk schemas a = false) :
    validateAgents schemas (pre ++ (id, a) :: post) =
        .error ("Agent \"" ++ id ++ "\" must have outputSchemaRef") ∨
    validateAgents schemas (pre ++ (id, a) :: post) =
        .error ("Agent \"" ++ id ++ "\" references unknown schema \"" ++
          (a.outputSchemaRef.getD "") ++ "\"") := by
  induction pre with
  | nil =>
    simp only [List.nil_append]
    cases href : a.outputSchemaRef with
    | none => left; simp [validateAgents, href]
    | some r =>
      by_cases hr : r = ""
      · left; simp [validateAgents, href, hr]
      · right
        simp only [agentOk, href] at ha
        have hrb : (r != "") = true := by simp [hr]
        rw [hrb, Bool.true_and] at ha
        cases hss : schemas with
        | none => subst hss; simp [validateAgents, href, hr]
        | some ss =>
          subst hss
          have ha2 : (alookup ss r).isSome = false := ha
          simp [validateAgents, href, hr, ha2]
  | cons q pre ih =>
    obtain ⟨qn, qa⟩ := q
    have hq := hpre (qn, qa) (by simp)
    cases href : qa.outputSchemaRef with
    | none => simp [agentOk, href] at hq
    | some r =>
      simp only [agentOk, href] at hq
      have hr : ¬ r = "" := by
        intro hc; subst hc; simp at hq
      cases hss : schemas with
      | none => subst hss; simp at hq
      | some ss =>
        subst hss
        have hq2 : (r != "" && (alookup ss r).isSome) = true := hq
        have hl : (alookup ss r).isSome = true := (Bool.and_eq_true _ _ ▸ hq2).2
        have hstep : validateAgents (some ss) ((qn, qa) :: (pre ++ (id, a) :: post)) =
            validateAgents (some ss) (pre ++ (id, a) :: post) := by
          simp [validateAgents, href, hr, hl]
        rw [List.cons_append, hstep]
        exact ih (fun p hp => hpre p (by simp [hp]))

/-- C7: `validateConfig` throws for a missing configuration or missing
`flow`, throws for empty or absent `flow.steps`, throws naming the (first)
offending schema when an output schema lacks a required `result`
property, throws naming the (first) offending agent when an agent has no
truthy `outputSchemaRef` or references an absent schema, and accepts
every configuration satisfying all of these invariants. -/
theorem validateConfig_spec :
    (validateConfig none = .error "Configuration must contain a \"flow\" property") ∧
    (∀ cfg : Config, cfg.flow = none →
        validateConfig (some cfg) =
          .error "Configuration must contain a \"flow\" property") ∧
    (∀ (cfg : Config) (f : FlowCfg), cfg.flow = some f →
        (f.steps = some [] ∨ f.steps = none) →
        validateConfig (some cfg) = .error "Flow must contain at least one step") ∧
    (∀ (cfg : Config) (f : FlowCfg) (l : List StepCfg) (pre : List (String × JSchema))
        (n : String) (s : JSchema) (post : List (String × JSchema)),
        cfg.flow = some f → f.steps = some l → l ≠ [] →
        cfg.outputSchemas.getD [] = pre ++ (n, s) :: post →
        (∀ p ∈ pre, schemaOk p.2 = true) → schemaOk s = false →
        (validateConfig (some cfg) =
            .error ("Output schema \"" ++ n ++ "\" must have \"result\" property") ∨
         validateConfig (some cfg) =
            .error ("Output schema \"" ++ n ++ "\" must require \"result\""))) ∧
    (∀ (cfg : Config) (f : FlowCfg) (l : List StepCfg) (pre : List (String × AgentCfg))
        (id : String) (a : AgentCfg) (post : List (String × AgentCfg)),
        cfg.flow = some f → f.steps = some l → l ≠ [] →
        (∀ p ∈ cfg.outputSchemas.getD [], schemaOk p.2 = true) →
        cfg.agents.getD [] = pre ++ (id, a) :: post →
        (∀ p ∈ pre, agentOk cfg.outputSchemas p.2 = true) →
        agentOk cfg.outputSchemas a = false →
        (validateConfig (some cfg) =
            .error ("Agent \"" ++ id ++ "\" must have outputSchemaRef") ∨
         validateConfig (some cfg) =
            .error ("Agent \"" ++ id ++ "\" references unknown schema \"" ++
              (a.outputSchemaRef.getD "") ++ "\""))) ∧
    (∀ (cfg : Config) (f : FlowCfg) (l : List StepCfg),
        cfg.flow = some f → f.steps = some l → l ≠ [] →
        (∀ p ∈ cfg.outputSchemas.getD [], schemaOk p.2 = true) →
        (∀ p ∈ cfg.agents.getD [], agentOk cfg.outputSchemas p.2 = true) →
        validateConfig (some cfg) = .ok ()) := by
  have hred : ∀ (cfg : Config) (f : FlowCfg) (l : List StepCfg),
      cfg.flow = some f → f.steps = some l → l ≠ [] →
      validateConfig (some cfg) =
        (match validateSchemas (cfg.outputSchemas.getD []) with
         | .error e => .error e
         | .ok _ => validateAgents cfg.outputSchemas (cfg.agents.getD [])) := by
    intro cfg f l hf hst hne
    have hlen : (l.length == 0) = false := by
      cases l with
      | nil => exact absurd rfl hne
      | cons a t => rfl
    simp [validateConfig, hf, hst, hlen]
  refine ⟨rfl, ?_, ?_, ?_, ?_, ?_⟩
  · intro cfg h
    simp [validateConfig, h]
  · intro cfg f hf hor
    rcases hor with h | h <;> simp [validateConfig, hf, h]
  · intro cfg f l pre n s post hf hst hne hos hpre hs
    rcases validateSchemas_offender pre n s post hpre hs with h | h
    · left; rw [hred cfg f l hf hst hne, hos, h]
    · right; rw [hred cfg f l hf hst hne, hos, h]
  · intro cfg f l pre id a post hf hst hne hok hag hpre ha
    have hsok : validateSchemas (cfg.outputSchemas.getD []) = .ok () :=
      validateSchemas_ok _ hok
    rcases validateAgents_offender cfg.outputSchemas pre id a post hpre ha with h | h
    · left; rw [hred cfg f l hf hst hne, hsok, hag, h]
    · right; rw [hred cfg f l hf hst hne, hsok, hag, h]
  · intro cfg f l hf hst hne hok hag
    rw [hred cfg f l hf hst hne, validateSchemas_ok _ hok, validateAgents_ok _ _ hag]

/-- C7 witness: a minimal valid configuration validates, and a
configuration whose only output schema lacks `result` is rejected with
an error naming that schema. -/
theorem validateConfig_spec_witness :
    validateConfig (some singleStepConfig) = .ok () ∧
    (validateConfig (some badSchemaConfig) =
        .error ("Output schema \"noResult\" must have \"result\" property") ∨
     validateConfig (some badSchemaConfig) =
        .error ("Output schema \"noResult\" must require \"result\"")) := by
  constructor
  · exact validateConfig_spec.2.2.2.2.2 singleStepConfig ⟨some [singleStep]⟩ [singleStep]
      rfl rfl (by simp) (by simp [singleStepConfig]) (by simp [singleStepConfig])
  · exact validateConfig_spec.2.2.2.1 badSchemaConfig ⟨some [singleStep]⟩ [singleStep]
      [] "noResult" (.node (some "object") none none (some []) none none) []
      rfl rfl (by simp) rfl (by simp) rfl

/-- Lookup through a key-preserving map over an association list. -/
theorem alookup_map_keyed {α β : Type} (g : String → α → β)
    (l : List (String × α)) (key : String) :
    alookup (l.map (fun p => (p.1, g p.1 p.2))) key = (alookup l key).map (g key) := by
  induction l with
  | nil => rfl
  | cons p rest ih =>
    obtain ⟨k, v⟩ := p
    by_cases hk : k = key
    · subst hk; simp [alookup]
    · simp [alookup, hk, ih]

/-- C8 counterexample: building the registry for an agent whose only
tool is `{kind: "agent", ref: "nonexistent"}` completes, leaves the
final tool list empty — but emits no warning at all (the emitted-warning
log of the build is empty), contradicting the claim that a warning is
emitted. -/
theorem buildAgents_unknown_ref_cex :
    (buildAgents [("A", unknownRefAgentCfg)] [] [("basic", basicSchema)]).2 = [] ∧
    (alookup (buildAgents [("A", unknownRefAgentCfg)] [] [("basic", basicSchema)]).1
        "A").map AgentFinal.tools = some [] :=
  ⟨rfl, rfl⟩

/-- C8 (amended): the registry build completes without a fatal error and
without emitting any warning; an `agent`-kind tool entry whose `ref` is
not a configured agent id is simply absent from the final tool list,
while entries with known refs are wrapped from the pass-1 base handle
and named by the tool's `id`, falling back to the referenced agent id. -/
theorem buildAgents_tools_spec :
    (∀ (ac : List (String × AgentCfg)) (mcp : List (String × McpHandle))
        (ss : List (String × JSchema)), (buildAgents ac mcp ss).2 = []) ∧
    (∀ (base : List (String × AgentBase)) (t : ToolCfg) (r : String),
        t.kind = some "agent" → t.ref = some r → alookup base r = none →
        buildAgentTool base t = none) ∧
    (∀ (base : List (String × AgentBase)) (t : ToolCfg) (r : String) (b : AgentBase),
        t.kind = some "agent" → t.ref = some r → alookup base r = some b →
        buildAgentTool base t =
          some ⟨jsOrStr t.id r, jsOrStr t.description ("Tool for agent " ++ r), b⟩) ∧
    (∀ (ac : List (String × AgentCfg)) (mcp : List (String × McpHandle))
        (ss : List (String × JSchema)) (id : String) (a : AgentCfg),
        alookup ac id = some a →
        alookup (buildAgents ac mcp ss).1 id =
          some (buildFinalAgent (buildBaseAgents ac mcp ss) ss mcp id a)) ∧
    (∀ (base : List (String × AgentBase)) (ss : List (String × JSchema))
        (mcp : List (String × McpHandle)) (id : String) (a : AgentCfg),
        (buildFinalAgent base ss mcp id a).tools =
          (a.tools.getD []).filterMap (buildAgentTool base)) := by
  refine ⟨fun ac mcp ss => rfl, ?_, ?_, ?_, fun base ss mcp id a => rfl⟩
  · intro base t r hk hr hl
    simp [buildAgentTool, hk, hr, hl]
  · intro base t r b hk hr hl
    simp [buildAgentTool, hk, hr, hl]
  · intro ac mcp ss id a h
    show alookup (ac.map (fun p =>
      (p.1, buildFinalAgent (buildBaseAgents ac mcp ss) ss mcp p.1 p.2))) id = _
    rw [alookup_map_keyed (fun i x => buildFinalAgent (buildBaseAgents ac mcp ss) ss mcp i x)
      ac id, h]
    rfl

/-- C8 amended witness: on the counterexample configuration the unknown
ref contributes no tool and no warning, the final agent is the pass-2
rebuild, and a tool with the known ref `A` wraps the pass-1 base handle
under the fallback name `A`. -/
theorem buildAgents_tools_spec_witness :
    buildAgentTool (buildBaseAgents [("A", unknownRefAgentCfg)] [] [("basic", basicSchema)])
        ⟨some "agent", some "nonexistent", some "helper", none⟩ = none ∧
    (buildAgents [("A", unknownRefAgentCfg)] [] [("basic", basicSchema)]).2 = [] ∧
    alookup (buildAgents [("A", unknownRefAgentCfg)] [] [("basic", basicSchema)]).1 "A" =
      some (buildFinalAgent
        (buildBaseAgents [("A", unknownRefAgentCfg)] [] [("basic", basicSchema)])
        [("basic", basicSchema)] [] "A" unknownRefAgentCfg) ∧
    buildAgentTool (buildBaseAgents [("A", unknownRefAgentCfg)] [] [("basic", basicSchema)])
        ⟨some "agent", some "A", none, none⟩ =
      some ⟨"A", "Tool for agent A",
        buildBaseAgent [("basic", basicSchema)] [] "A" unknownRefAgentCfg⟩ :=
  ⟨buildAgents_tools_spec.2.1 _ ⟨some "agent", some "nonexistent", some "helper", none⟩
      "nonexistent" rfl rfl rfl,
    buildAgents_tools_spec.1 [("A", unknownRefAgentCfg)] [] [("basic", basicSchema)],
    buildAgents_tools_spec.2.2.2.1 [("A", unknownRefAgentCfg)] [] [("basic", basicSchema)]
      "A" unknownRefAgentCfg rfl,
    buildAgents_tools_spec.2.2.1 _ ⟨some "agent", some "A", none, none⟩ "A"
      (buildBaseAgent [("basic", basicSchema)] [] "A" unknownRefAgentCfg) rfl rfl rfl⟩

/-- C4 amended witness: the empty-steps configuration is rejected, and a
one-step reviewer flow whose runs produce no output returns
`{result: ""}`. -/
theorem runFlow_empty_steps_amended_witness :
    runFlow (some "sk-test") runNothing errEngine (some emptyStepsConfig) "hi" none =
      .error "Flow must contain at least one step" ∧
    runFlow (some "sk-test") runNothing errEngine (some revStepConfig) "hi" none =
      .ok (.vObj [("result", .vStr "")]) :=
  ⟨runFlow_empty_steps_amended.1 (some "sk-test") none runNothing errEngine
      emptyStepsConfig "hi" "sk-test" ⟨some []⟩ rfl rfl (Or.inl rfl),
    runFlow_empty_steps_amended.2 (some "sk-test") none runNothing errEngine
      revStepConfig "hi" "sk-test" ⟨some [revStep]⟩ revStep rfl rfl rfl rfl rfl
      (fun _ _ => rfl)⟩
